import Mathlib

/-!
# CiteGraph — verification of the Citation Graph Analytics Engine

A shallow embedding of the core of the CiteGraph repository:

* `find_most_relevant_papers` (src/app.py) — the relevance scorer;
* `CitationGraphBuilder` (src/graph_utils.py) — graph construction
  (`build_graph_from_data`), statistics (`get_graph_statistics`),
  centrality (`get_centrality_measures`) and year filtering
  (`filter_graph_by_year`);
* `CitationDatabase.get_related_papers` (src/db.py) — relation discovery
  over the `citations` and `paper_references` tables.

Python floats are modelled as exact rationals, Python dicts with missing
keys as `Option` fields, raised exceptions as `Except Unit`.  Library
calls into NetworkX are modelled by total Lean functions computing the
documented value, returning `Except.error` exactly where the library
raises (empty or disconnected graph for `nx.diameter`); the two
iterative algorithms whose convergence failure cannot be modelled
exactly (`nx.betweenness_centrality`, `nx.pagerank`) are passed in as
parameters, so theorems about the fallback branches quantify over every
possible behaviour of the library.
-/

namespace CiteGraph

/-! ## Stable sorting

Python `list.sort(key=..., reverse=True)` is a stable sort; with
`reverse=True` it orders by descending key and keeps elements with equal
keys in their original order.  We model it by a structurally recursive
stable insertion sort parameterised by a boolean relation `le`, where
`le a b` means `a` may be placed before `b`. -/

/-- Insert `x` into `l`, placing it before the first element `y` with
`le x y`; for a total preorder this keeps the insertion stable. -/
def stableInsert (le : α → α → Bool) (x : α) : List α → List α
  | [] => [x]
  | y :: ys => if le x y then x :: y :: ys else y :: stableInsert le x ys

/-- Stable insertion sort with respect to `le`. -/
def stableSort (le : α → α → Bool) : List α → List α
  | [] => []
  | x :: xs => stableInsert le x (stableSort le xs)

/-! ## Relevance scorer (src/app.py, `find_most_relevant_papers`) -/

/-- A paper record as consumed by `find_most_relevant_papers`
(src/app.py:203).  `Option` fields model Python `dict.get` defaults; a
missing or empty `keywords` entry are indistinguishable to the source
(both falsy), so keywords are a plain list.  Per the data model the
citation count is a non-negative integer. -/
structure Paper where
  citation_count : Option Nat
  year : Option Int
  journal : Option String
  keywords : List String
deriving DecidableEq

/-- A paper annotated with its computed `relevance_score`
(src/app.py:246-249, `{**paper, 'relevance_score': round(score, 2)}`). -/
structure ScoredPaper where
  paper : Paper
  relevance_score : ℚ
deriving DecidableEq

/-- Python `str.lower()`, modelled characterwise over the character
list (identical to `String.toLower`, which is not kernel-reducible). -/
def pyLower (s : String) : String := ⟨s.data.map Char.toLower⟩

/-- Case-insensitive-ready substring containment: Python `sub in hay`
on strings. -/
def strContains (hay sub : String) : Bool :=
  (List.range (hay.length + 1)).any fun i => sub.data.isPrefixOf (hay.data.drop i)

/-- Python `round(q, d)` for `d` decimal digits, modelled on exact
rationals as round-half-up scaling (no tie is ever hit in this
development, so the half-even behaviour of binary floats is
indistinguishable). -/
def pyRound (digits : Nat) (q : ℚ) : ℚ :=
  ((⌊q * (10 ^ digits : ℕ) + 1 / 2⌋ : ℤ) : ℚ) / (10 ^ digits : ℕ)

/-- `current_year = 2024` (src/app.py:213) — a fixed constant, not the
actual date. -/
def current_year : Int := 2024

/-- Citation component (src/app.py:218-220):
`min(paper.get('citation_count', 0) / 100, 1.0) * 40`. -/
def citationScore (p : Paper) : ℚ :=
  min ((p.citation_count.getD 0 : ℚ) / 100) 1 * 40

/-- Recency component (src/app.py:222-225):
`max(0, (current_year - paper.get('year', 2000)) / 50) * 30`. -/
def recencyScore (p : Paper) : ℚ :=
  max 0 (((current_year : ℚ) - ((p.year.getD 2000 : ℤ) : ℚ)) / 50) * 30

/-- Venue-impact component (src/app.py:227-237): tiered case-insensitive
substring match on the journal name. -/
def journalScore (p : Paper) : ℚ :=
  let j := pyLower (p.journal.getD "")
  if strContains j "nature" || strContains j "science" then 20
  else if strContains j "cell" || strContains j "lancet" then 18
  else if strContains j "pnas" || strContains j "jama" then 15
  else 10

/-- Keyword-overlap component (src/app.py:239-244): a reference keyword
matches when it contains, or is contained in, a lower-cased paper
keyword; the component is `min(matches / len(keywords), 1.0) * 10` and
`0` when either keyword list is empty. -/
def keywordScore (kws : List String) (p : Paper) : ℚ :=
  if kws ≠ [] ∧ p.keywords ≠ [] then
    let paper_keywords := p.keywords.map pyLower
    let keyword_matches :=
      kws.countP fun kw => paper_keywords.any fun pk => strContains kw pk || strContains pk kw
    min ((keyword_matches : ℚ) / (kws.length : ℚ)) 1 * 10
  else 0

/-- Score and annotate one paper (src/app.py:215-249). -/
def scorePaper (kws : List String) (p : Paper) : ScoredPaper :=
  { paper := p
    relevance_score :=
      pyRound 2 (citationScore p + recencyScore p + journalScore p + keywordScore kws p) }

/-- The comparison used by `scored_papers.sort(key=..., reverse=True)`
(src/app.py:252): descending by `relevance_score`. -/
def scoreLe (a b : ScoredPaper) : Bool :=
  decide (b.relevance_score ≤ a.relevance_score)

/-- `find_most_relevant_papers` (src/app.py:203-255): empty input short
circuits to `[]`; otherwise annotate every paper with its rounded score,
stable-sort descending by that score and keep the top 15. -/
def find_most_relevant_papers (papers : List Paper) (kws : List String) : List ScoredPaper :=
  if papers = [] then []
  else (stableSort scoreLe (papers.map (scorePaper kws))).take 15

/-! ## Graph builder (src/graph_utils.py, `CitationGraphBuilder`) -/

/-- A NetworkX `DiGraph`: nodes in insertion order, at most one directed
edge per ordered pair. -/
structure DiGraph where
  nodes : List String
  edges : List (String × String)
deriving DecidableEq

/-- `graph.add_node(v)`: no-op when the node exists. -/
def addNode (g : DiGraph) (v : String) : DiGraph :=
  if v ∈ g.nodes then g else { g with nodes := g.nodes ++ [v] }

/-- `graph.add_edge(u, v)`: ensures both endpoints exist, then adds the
edge unless already present. -/
def addEdge (g : DiGraph) (u v : String) : DiGraph :=
  let g1 := addNode (addNode g u) v
  if (u, v) ∈ g1.edges then g1 else { g1 with edges := g1.edges ++ [(u, v)] }

/-- A node record of the input batch (src/graph_utils.py:32-35);
`id = none` models a dict without an `id` key.  Only the attributes the
core reads are carried. -/
structure NodeRec where
  id : Option String
  year : Option Int
  citation_count : Option Int
deriving DecidableEq

/-- An edge record of the input batch (src/graph_utils.py:38-40);
`none` models a missing `from` / `to` key. -/
structure EdgeRec where
  fromId : Option String
  toId : Option String
deriving DecidableEq

/-- The `graph_data` dict handed to `build_graph_from_data`. -/
structure GraphData where
  nodes : List NodeRec
  edges : List EdgeRec
deriving DecidableEq

/-- The builder state: `self.graph`, `self.node_data`, `self.edge_data`
(src/graph_utils.py:19-23).  `node_data` is a Python dict in insertion
order with last-write-wins updates. -/
structure Builder where
  graph : DiGraph
  node_data : List (String × NodeRec)
  edge_data : List ((String × String) × EdgeRec)
deriving DecidableEq

/-- Python dict update `m[k] = v`: overwrite in place or append. -/
def setEntry (m : List (String × NodeRec)) (k : String) (v : NodeRec) :
    List (String × NodeRec) :=
  if m.any (fun kv => kv.1 == k) then
    m.map fun kv => if kv.1 == k then (k, v) else kv
  else m ++ [(k, v)]

/-- Python `k in m` for the `node_data` dict. -/
def hasKey (m : List (String × NodeRec)) (k : String) : Bool :=
  m.any fun kv => kv.1 == k

/-- The node loop of `build_graph_from_data` (src/graph_utils.py:32-35):
`node['id']` raises `KeyError` (modelled `Except.error ()`) when the
`id` key is missing. -/
def addNodeRecs : List NodeRec → Builder → Except Unit Builder
  | [], b => .ok b
  | n :: rest, b =>
    match n.id with
    | none => .error ()
    | some i =>
        addNodeRecs rest
          { graph := addNode b.graph i
            node_data := setEntry b.node_data i n
            edge_data := b.edge_data }

/-- The edge loop of `build_graph_from_data` (src/graph_utils.py:38-43):
`edge['from']` / `edge['to']` raise on a missing key; an edge whose
endpoints are not both in `node_data` is silently skipped. -/
def addEdgeRecs : List EdgeRec → Builder → Except Unit Builder
  | [], b => .ok b
  | e :: rest, b =>
    match e.fromId, e.toId with
    | some u, some v =>
        if hasKey b.node_data u && hasKey b.node_data v then
          addEdgeRecs rest
            { graph := addEdge b.graph u v
              node_data := b.node_data
              edge_data := b.edge_data ++ [((u, v), e)] }
        else addEdgeRecs rest b
    | _, _ => .error ()

/-- `build_graph_from_data` (src/graph_utils.py:25-45): clear the
builder, add all nodes, then all admissible edges.  A raised `KeyError`
aborts the whole build. -/
def build_graph_from_data (data : GraphData) : Except Unit Builder :=
  (addNodeRecs data.nodes { graph := ⟨[], []⟩, node_data := [], edge_data := [] }).bind
    fun b => addEdgeRecs data.edges b

/-- The ids actually present on the supplied node records. -/
def nodeIds (data : GraphData) : List String :=
  data.nodes.filterMap fun n => n.id

/-! ## Graph analytics (src/graph_utils.py:47-135)

`nx.diameter`, `nx.average_clustering`,
`nx.number_strongly_connected_components` and the degree centralities
are modelled as total Lean functions computing the documented NetworkX
value; `nx.diameter` returns `Except.error` exactly where NetworkX
raises (empty graph or disconnected undirected projection). -/

/-- Adjacency in the undirected projection `graph.to_undirected()`. -/
def uAdj (g : DiGraph) (u v : String) : Bool :=
  g.edges.any fun e => (e.1 == u && e.2 == v) || (e.1 == v && e.2 == u)

/-- One breadth step in the undirected projection. -/
def uExpand (g : DiGraph) (s : List String) : List String :=
  s ++ g.nodes.filter fun v => !s.contains v && s.any fun u => uAdj g u v

/-- Iterated breadth steps (fuelled, structurally recursive). -/
def uReachAux (g : DiGraph) : Nat → List String → List String
  | 0, s => s
  | fuel + 1, s => uReachAux g fuel (uExpand g s)

/-- Nodes reachable from `u` in the undirected projection. -/
def uReach (g : DiGraph) (u : String) : List String :=
  uReachAux g g.nodes.length [u]

/-- Model of `nx.is_connected` on the undirected projection; NetworkX
treats the empty graph as not connected (it raises on it). -/
def isConnectedU (g : DiGraph) : Bool :=
  match g.nodes with
  | [] => false
  | r :: _ => g.nodes.all fun v => (uReach g r).contains v

/-- Shortest-path distance in the undirected projection: the first
radius whose breadth ball contains `v`. -/
def uDist (g : DiGraph) (u v : String) : Option Nat :=
  (List.range (g.nodes.length + 1)).find? fun k => (uReachAux g k [u]).contains v

/-- Longest shortest path over all node pairs of the undirected
projection. -/
def diameterU (g : DiGraph) : Nat :=
  (g.nodes.flatMap fun u => g.nodes.map fun v => (uDist g u v).getD 0).foldr max 0

/-- Model of `nx.diameter(graph.to_undirected())`
(src/graph_utils.py:69): raises unless the undirected projection is
nonempty and connected. -/
def nxDiameter (g : DiGraph) : Except Unit Nat :=
  if isConnectedU g then .ok (diameterU g) else .error ()

/-- Undirected neighbours of `v` (self loops excluded). -/
def uNbrs (g : DiGraph) (v : String) : List String :=
  g.nodes.filter fun u => u != v && uAdj g u v

/-- Local clustering coefficient of `v` in the undirected projection. -/
def localClustering (g : DiGraph) (v : String) : ℚ :=
  let ns := uNbrs g v
  let d := ns.length
  if d < 2 then 0
  else
    let links :=
      (ns.flatMap fun a => ns.map fun b => (a, b)).countP fun ab =>
        ab.1 != ab.2 && uAdj g ab.1 ab.2
    (links : ℚ) / ((d : ℚ) * ((d : ℚ) - 1))

/-- Model of `nx.average_clustering(graph.to_undirected())`
(src/graph_utils.py:75); NetworkX raises only on the empty graph, which
the caller has already excluded. -/
def nxAvgClustering (g : DiGraph) : ℚ :=
  if g.nodes = [] then 0
  else ((g.nodes.map (localClustering g)).sum) / (g.nodes.length : ℚ)

/-- Directed one-step expansion, for strongly connected components. -/
def dExpand (g : DiGraph) (s : List String) : List String :=
  s ++ g.nodes.filter fun v => !s.contains v && s.any fun u => g.edges.contains (u, v)

/-- Fuelled directed reachability iteration. -/
def dReachAux (g : DiGraph) : Nat → List String → List String
  | 0, s => s
  | fuel + 1, s => dReachAux g fuel (dExpand g s)

/-- Nodes reachable from `u` following edge directions. -/
def dReach (g : DiGraph) (u : String) : List String :=
  dReachAux g g.nodes.length [u]

/-- Mutual directed reachability — same strongly connected component. -/
def mutualReach (g : DiGraph) (u v : String) : Bool :=
  (dReach g u).contains v && (dReach g v).contains u

/-- Count class representatives: nodes with no earlier node in the same
strongly connected component. -/
def sccCountAux (g : DiGraph) : List String → List String → Nat
  | _, [] => 0
  | seen, v :: rest =>
      (if seen.any fun u => mutualReach g u v then 0 else 1) +
        sccCountAux g (seen ++ [v]) rest

/-- Model of `nx.number_strongly_connected_components`
(src/graph_utils.py:80). -/
def nxSccCount (g : DiGraph) : Nat :=
  sccCountAux g [] g.nodes

/-- The statistics dict returned by `get_graph_statistics`
(src/graph_utils.py:47-100). -/
structure GraphStats where
  total_nodes : Nat
  total_edges : Nat
  density : ℚ
  diameter : Nat
  avg_clustering : ℚ
  connected_components : Nat
deriving DecidableEq

/-- `get_graph_statistics` (src/graph_utils.py:47-100).  The method
reads only `self.graph`, so it is embedded as a function of the graph.
The empty graph short-circuits to the all-zero record; the
`try/except` around `nx.diameter` maps its error to `0`; the outer
`try/except` is unreachable because every remaining computation is
total. -/
def get_graph_statistics (g : DiGraph) : GraphStats :=
  if g.nodes = [] then ⟨0, 0, 0, 0, 0, 0⟩
  else
    { total_nodes := g.nodes.length
      total_edges := g.edges.length
      density :=
        pyRound 4 (if 1 < g.nodes.length then
          (g.edges.length : ℚ) / ((g.nodes.length : ℚ) * ((g.nodes.length : ℚ) - 1))
        else 0)
      diameter :=
        match nxDiameter g with
        | .ok d => d
        | .error _ => 0
      avg_clustering := pyRound 4 (nxAvgClustering g)
      connected_components := nxSccCount g }

/-- In-degree of `v`. -/
def inDeg (g : DiGraph) (v : String) : Nat :=
  g.edges.countP fun e => e.2 == v

/-- Out-degree of `v`. -/
def outDeg (g : DiGraph) (v : String) : Nat :=
  g.edges.countP fun e => e.1 == v

/-- Model of `nx.in_degree_centrality`: in-degree divided by `n - 1`
(NetworkX maps every node to `1` when the graph has at most one
node). -/
def nxInDegreeCentrality (g : DiGraph) : List (String × ℚ) :=
  if g.nodes.length ≤ 1 then g.nodes.map fun v => (v, 1)
  else g.nodes.map fun v => (v, (inDeg g v : ℚ) / ((g.nodes.length : ℚ) - 1))

/-- Model of `nx.out_degree_centrality`. -/
def nxOutDegreeCentrality (g : DiGraph) : List (String × ℚ) :=
  if g.nodes.length ≤ 1 then g.nodes.map fun v => (v, 1)
  else g.nodes.map fun v => (v, (outDeg g v : ℚ) / ((g.nodes.length : ℚ) - 1))

/-- The four centrality mappings returned by `get_centrality_measures`
(src/graph_utils.py:126-131). -/
structure Centrality where
  in_degree : List (String × ℚ)
  out_degree : List (String × ℚ)
  betweenness : List (String × ℚ)
  pagerank : List (String × ℚ)
deriving DecidableEq

/-- `get_centrality_measures` (src/graph_utils.py:102-135).  `none`
models the empty dict returned for an empty graph.  The iterative
library algorithms `nx.betweenness_centrality` and `nx.pagerank` are
parameters `bw` and `pr`; the inner `try/except` blocks map a raised
exception to the fallback mappings (all-zero, respectively uniform
`1/n`). -/
def get_centrality_measures (bw pr : DiGraph → Except Unit (List (String × ℚ)))
    (g : DiGraph) : Option Centrality :=
  if g.nodes = [] then none
  else some
    { in_degree := nxInDegreeCentrality g
      out_degree := nxOutDegreeCentrality g
      betweenness :=
        match bw g with
        | .ok m => m
        | .error _ => g.nodes.map fun v => (v, 0)
      pagerank :=
        match pr g with
        | .ok m => m
        | .error _ => g.nodes.map fun v => (v, 1 / (g.nodes.length : ℚ)) }

/-! ## Year filtering (src/graph_utils.py:177-189) -/

/-- `self.node_data.get(node, {}).get('year', 0)`
(src/graph_utils.py:183-184). -/
def yearOf (b : Builder) (v : String) : Int :=
  match b.node_data.lookup v with
  | some n => n.year.getD 0
  | none => 0

/-- `graph.remove_nodes_from(rem)`: drops the nodes and every edge
touching them. -/
def removeNodes (g : DiGraph) (rem : List String) : DiGraph :=
  { nodes := g.nodes.filter fun v => !rem.contains v
    edges := g.edges.filter fun e => !rem.contains e.1 && !rem.contains e.2 }

/-- `filter_graph_by_year` (src/graph_utils.py:177-189): copy the
graph, collect the nodes whose year lies outside `[start_year,
end_year]`, and remove them together with their incident edges. -/
def filter_graph_by_year (b : Builder) (start_year end_year : Int) : DiGraph :=
  let nodes_to_remove :=
    b.graph.nodes.filter fun v =>
      decide (yearOf b v < start_year) || decide (end_year < yearOf b v)
  removeNodes b.graph nodes_to_remove

/-- The method as a state transformer: it only reads `self`, so the
builder comes back unchanged — `filter_graph_by_year` never mutates the
source graph or the attribute tables. -/
def filter_graph_by_year_S (b : Builder) (start_year end_year : Int) :
    DiGraph × Builder :=
  (filter_graph_by_year b start_year end_year, b)

/-! ## Relation discovery (src/db.py:506-551, `get_related_papers`) -/

/-- The two relation tables read by `get_related_papers`:
`citations` rows are `(citing_doi, cited_doi)`, `paper_references` rows
are `(paper_doi, reference_doi)`.  Both tables are `UNIQUE` on the
pair; nothing prevents a self-citation row. -/
structure DB where
  citations : List (String × String)
  paper_references : List (String × String)
deriving DecidableEq

/-- Total outgoing reference count of `p` (the correlated `COUNT(*)`
subquery of the first query, src/db.py:518-522). -/
def refCount (db : DB) (p : String) : Nat :=
  db.paper_references.countP fun r => r.1 == p

/-- Total outgoing citation count of `x` — rows with `citing_doi = x`
(the correlated `COUNT(*)` subquery of the second query,
src/db.py:534-538). -/
def citingCount (db : DB) (x : String) : Nat :=
  db.citations.countP fun c => c.1 == x

/-- Total incoming citation count of `p` — rows with `cited_doi = p`. -/
def citedCount (db : DB) (p : String) : Nat :=
  db.citations.countP fun c => c.2 == p

/-- `SELECT DISTINCT` dedup keeping the first occurrence. -/
def dedupFirst : List String → List String
  | [] => []
  | x :: xs => x :: (dedupFirst xs).filter fun y => y != x

/-- First query of `get_related_papers` (src/db.py:513-524): distinct
`pr1.paper_doi` joined on a shared `reference_doi` with the target,
target excluded, ordered by the outgoing reference count of the
selected paper, descending, `LIMIT 10`.  SQLite leaves the order of
ties unspecified; the model keeps first-occurrence order on ties
(stable sort). -/
def sharedRefQuery (db : DB) (doi : String) : List String :=
  let rows := db.paper_references.filter fun pr1 =>
    pr1.1 != doi && db.paper_references.any fun pr2 => pr2.1 == doi && pr2.2 == pr1.2
  (stableSort (fun a b => decide (refCount db b ≤ refCount db a))
    (dedupFirst (rows.map fun r => r.1))).take 10

/-- Second query of `get_related_papers` (src/db.py:529-540): distinct
`c1.citing_doi` over the self-join `c1.citing_doi = c2.citing_doi` with
`c2.cited_doi = doi` and `c1.cited_doi != doi`, ordered by the number
of citation rows whose `citing_doi` equals the selected value,
descending, `LIMIT 10`.  Note it selects the *citing* side. -/
def coCitationQuery (db : DB) (doi : String) : List String :=
  let rows := db.citations.filter fun c1 =>
    c1.2 != doi && db.citations.any fun c2 => c2.1 == c1.1 && c2.2 == doi
  (stableSort (fun a b => decide (citingCount db b ≤ citingCount db a))
    (dedupFirst (rows.map fun r => r.1))).take 10

/-- Co-citation as the spec words it (spec §4.3, point 2): papers `P ≠
target` cited together with the target by at least one common citing
paper, ranked by the total incoming citation count of `P`, descending,
capped at 10.  Stated only to compare with `coCitationQuery`, the
query the source actually runs. -/
def coCitationSpec (db : DB) (doi : String) : List String :=
  let rows := db.citations.filter fun c1 =>
    c1.2 != doi && db.citations.any fun c2 => c2.1 == c1.1 && c2.2 == doi
  (stableSort (fun a b => decide (citedCount db b ≤ citedCount db a))
    (dedupFirst (rows.map fun r => r.2))).take 10

/-- `get_related_papers` (src/db.py:506-551): union of the two query
results, deduplicated (`list(set(...))`, whose iteration order Python
leaves unspecified — modelled as first-occurrence order), truncated to
15. -/
def get_related_papers (db : DB) (doi : String) : List String :=
  let related_dois := sharedRefQuery db doi
  let co_cited_dois := coCitationQuery db doi
  (dedupFirst (related_dois ++ co_cited_dois)).take 15

/-! ## Properties of the stable sort -/

theorem perm_stableInsert (le : α → α → Bool) (x : α) (l : List α) :
    (stableInsert le x l).Perm (x :: l) := by
  induction l with
  | nil => exact List.Perm.refl _
  | cons y ys ih =>
      simp only [stableInsert]
      by_cases hxy : le x y = true
      · rw [if_pos hxy]
      · rw [if_neg hxy]
        exact (ih.cons y).trans (List.Perm.swap x y ys)

theorem stableSort_perm (le : α → α → Bool) (l : List α) :
    (stableSort le l).Perm l := by
  induction l with
  | nil => exact List.Perm.refl _
  | cons x xs ih =>
      exact (perm_stableInsert le x (stableSort le xs)).trans (ih.cons x)

theorem mem_stableSort (le : α → α → Bool) {a : α} {l : List α} :
    a ∈ stableSort le l ↔ a ∈ l :=
  (stableSort_perm le l).mem_iff

theorem pairwise_stableInsert (le : α → α → Bool)
    (htr : ∀ a b c, le a b = true → le b c = true → le a c = true)
    (hto : ∀ a b, le a b = true ∨ le b a = true) (x : α) (l : List α)
    (h : l.Pairwise fun a b => le a b = true) :
    (stableInsert le x l).Pairwise fun a b => le a b = true := by
  induction l with
  | nil => simp [stableInsert]
  | cons y ys ih =>
      rcases List.pairwise_cons.mp h with ⟨hy, hys⟩
      simp only [stableInsert]
      by_cases hxy : le x y = true
      · rw [if_pos hxy]
        refine List.pairwise_cons.mpr ⟨?_, h⟩
        intro z hz
        rcases List.mem_cons.mp hz with rfl | hz
        · exact hxy
        · exact htr x y z hxy (hy z hz)
      · rw [if_neg hxy]
        have hyx : le y x = true := (hto x y).resolve_left hxy
        refine List.pairwise_cons.mpr ⟨?_, ih hys⟩
        intro z hz
        rcases List.mem_cons.mp ((perm_stableInsert le x ys).mem_iff.mp hz) with rfl | hz
        · exact hyx
        · exact hy z hz

theorem pairwise_stableSort (le : α → α → Bool)
    (htr : ∀ a b c, le a b = true → le b c = true → le a c = true)
    (hto : ∀ a b, le a b = true ∨ le b a = true) (l : List α) :
    (stableSort le l).Pairwise fun a b => le a b = true := by
  induction l with
  | nil => simp [stableSort]
  | cons x xs ih => exact pairwise_stableInsert le htr hto x _ ih

theorem sublist_stableInsert (le : α → α → Bool) (x : α) (l : List α) :
    l.Sublist (stableInsert le x l) := by
  induction l with
  | nil => exact List.nil_sublist _
  | cons y ys ih =>
      simp only [stableInsert]
      by_cases hxy : le x y = true
      · rw [if_pos hxy]
        exact List.sublist_cons_self x (y :: ys)
      · rw [if_neg hxy]
        exact ih.cons₂ y

theorem cons_sublist_stableInsert (le : α → α → Bool) {x : α} {c l : List α}
    (hc : c.Sublist l) (hx : ∀ y ∈ c, le x y = true) :
    (x :: c).Sublist (stableInsert le x l) := by
  induction l generalizing c with
  | nil =>
      rw [List.sublist_nil.mp hc]
      simp [stableInsert]
  | cons y ys ih =>
      simp only [stableInsert]
      by_cases hxy : le x y = true
      · rw [if_pos hxy]
        exact hc.cons₂ x
      · rw [if_neg hxy]
        cases hc with
        | cons _ h => exact (ih h hx).cons y
        | cons₂ _ h =>
            exact absurd (hx y (List.mem_cons_self y _)) hxy

theorem sublist_stableSort (le : α → α → Bool) {c l : List α}
    (hc : c.Sublist l) (hcp : c.Pairwise fun a b => le a b = true) :
    c.Sublist (stableSort le l) := by
  induction l generalizing c with
  | nil =>
      rw [List.sublist_nil.mp hc]
      exact List.nil_sublist _
  | cons x xs ih =>
      cases hc with
      | cons _ h =>
          exact (ih h hcp).trans (sublist_stableInsert le x (stableSort le xs))
      | cons₂ _ h =>
          rcases List.pairwise_cons.mp hcp with ⟨hx, hcp2⟩
          exact cons_sublist_stableInsert le (ih h hcp2) hx

theorem scoreLe_trans (a b c : ScoredPaper) :
    scoreLe a b = true → scoreLe b c = true → scoreLe a c = true := by
  simp only [scoreLe, decide_eq_true_iff]
  intro hab hbc
  exact le_trans hbc hab

theorem scoreLe_total (a b : ScoredPaper) :
    scoreLe a b = true ∨ scoreLe b a = true := by
  simp only [scoreLe, decide_eq_true_iff]
  exact le_total b.relevance_score a.relevance_score

/-- First-occurrence dedup does not change membership. -/
theorem mem_dedupFirst {a : String} {l : List String} :
    a ∈ dedupFirst l ↔ a ∈ l := by
  induction l with
  | nil => simp [dedupFirst]
  | cons x xs ih =>
      simp only [dedupFirst, List.mem_cons, List.mem_filter, bne_iff_ne, ih]
      by_cases hax : a = x
      · subst hax
        simp
      · simp [hax]

/-! ## Properties of the graph builder -/

theorem addNode_edges (g : DiGraph) (v : String) : (addNode g v).edges = g.edges := by
  unfold addNode
  split <;> rfl

theorem addEdge_edges_sub (g : DiGraph) (u v : String) {p : String × String}
    (hp : p ∈ (addEdge g u v).edges) : p ∈ g.edges ∨ p = (u, v) := by
  simp only [addEdge] at hp
  split at hp
  · rw [addNode_edges, addNode_edges] at hp
    exact Or.inl hp
  · simp only [addNode_edges] at hp
    rcases List.mem_append.mp hp with h | h
    · exact Or.inl h
    · exact Or.inr (List.mem_singleton.mp h)

theorem hasKey_setEntry (m : List (String × NodeRec)) (i : String) (n : NodeRec)
    (k : String) : hasKey (setEntry m i n) k = true ↔ hasKey m k = true ∨ k = i := by
  unfold setEntry
  by_cases hm : m.any (fun kv => kv.1 == i) = true
  · rw [if_pos hm]
    have heq : ∀ kv : String × NodeRec,
        ((if kv.1 == i then (i, n) else kv).1 == k) = (kv.1 == k) := by
      intro kv
      by_cases hkv : (kv.1 == i) = true
      · rw [if_pos hkv]
        rw [eq_of_beq hkv]
      · rw [if_neg hkv]
    simp only [hasKey, List.any_map, Function.comp_def, heq]
    constructor
    · exact Or.inl
    · rintro (h | rfl)
      · exact h
      · exact hm
  · rw [if_neg hm]
    simp only [hasKey, List.any_append, List.any_cons, List.any_nil, Bool.or_false,
      Bool.or_eq_true, beq_iff_eq]
    exact or_congr Iff.rfl ⟨Eq.symm, Eq.symm⟩

theorem except_error_iff {β : Type} (e : Except Unit β) :
    e = .error () ↔ ¬ ∃ b2, e = .ok b2 := by
  cases e <;> simp

theorem addNodeRecs_ok_iff (ns : List NodeRec) :
    ∀ b : Builder, (∃ b2, addNodeRecs ns b = .ok b2) ↔ ∀ n ∈ ns, n.id ≠ none := by
  induction ns with
  | nil =>
      intro b
      simp [addNodeRecs]
  | cons n rest ih =>
      intro b
      cases hid : n.id with
      | none => simp [addNodeRecs, hid]
      | some i => simp [addNodeRecs, hid, ih]

theorem addNodeRecs_edges (ns : List NodeRec) :
    ∀ b b2 : Builder, addNodeRecs ns b = .ok b2 → b2.graph.edges = b.graph.edges := by
  induction ns with
  | nil =>
      intro b b2 h
      cases h
      rfl
  | cons n rest ih =>
      intro b b2 h
      cases hid : n.id with
      | none => rw [addNodeRecs, hid] at h; cases h
      | some i =>
          rw [addNodeRecs, hid] at h
          rw [ih _ _ h]
          exact addNode_edges b.graph i

theorem addNodeRecs_hasKey (ns : List NodeRec) :
    ∀ b b2 : Builder, addNodeRecs ns b = .ok b2 → ∀ k,
      hasKey b2.node_data k = true →
      hasKey b.node_data k = true ∨ ∃ n ∈ ns, n.id = some k := by
  induction ns with
  | nil =>
      intro b b2 h k hk
      cases h
      exact Or.inl hk
  | cons n rest ih =>
      intro b b2 h k hk
      cases hid : n.id with
      | none => rw [addNodeRecs, hid] at h; cases h
      | some i =>
          rw [addNodeRecs, hid] at h
          rcases ih _ _ h k hk with hkey | ⟨m, hm, hmk⟩
          · rcases (hasKey_setEntry b.node_data i n k).mp hkey with hkey2 | rfl
            · exact Or.inl hkey2
            · exact Or.inr ⟨n, List.mem_cons_self n rest, hid⟩
          · exact Or.inr ⟨m, List.mem_cons_of_mem n hm, hmk⟩

theorem addEdgeRecs_node_data (es : List EdgeRec) :
    ∀ b b2 : Builder, addEdgeRecs es b = .ok b2 → b2.node_data = b.node_data := by
  induction es with
  | nil =>
      intro b b2 h
      cases h
      rfl
  | cons e rest ih =>
      intro b b2 h
      cases hf : e.fromId with
      | none =>
          simp only [addEdgeRecs, hf] at h
          cases h
      | some u =>
          cases ht : e.toId with
          | none =>
              simp only [addEdgeRecs, hf, ht] at h
              cases h
          | some v =>
              simp only [addEdgeRecs, hf, ht] at h
              split at h
              · have h2 := ih _ _ h
                exact h2
              · exact ih _ _ h

theorem addEdgeRecs_ok_iff (es : List EdgeRec) :
    ∀ b : Builder, (∃ b2, addEdgeRecs es b = .ok b2) ↔
      ∀ e ∈ es, e.fromId ≠ none ∧ e.toId ≠ none := by
  induction es with
  | nil =>
      intro b
      simp [addEdgeRecs]
  | cons e rest ih =>
      intro b
      cases hf : e.fromId with
      | none => simp [addEdgeRecs, hf]
      | some u =>
          cases ht : e.toId with
          | none => simp [addEdgeRecs, hf, ht]
          | some v =>
              simp only [addEdgeRecs, hf, ht]
              by_cases hcond : (hasKey b.node_data u && hasKey b.node_data v) = true
              · rw [if_pos hcond]
                simp [hf, ht, ih]
              · rw [if_neg hcond]
                simp [hf, ht, ih]

theorem addEdgeRecs_edges (es : List EdgeRec) :
    ∀ b b2 : Builder, addEdgeRecs es b = .ok b2 → ∀ p ∈ b2.graph.edges,
      p ∈ b.graph.edges ∨
        (hasKey b.node_data p.1 = true ∧ hasKey b.node_data p.2 = true) := by
  induction es with
  | nil =>
      intro b b2 h p hp
      cases h
      exact Or.inl hp
  | cons e rest ih =>
      intro b b2 h p hp
      cases hf : e.fromId with
      | none =>
          simp only [addEdgeRecs, hf] at h
          cases h
      | some u =>
          cases ht : e.toId with
          | none =>
              simp only [addEdgeRecs, hf, ht] at h
              cases h
          | some v =>
              simp only [addEdgeRecs, hf, ht] at h
              by_cases hcond : (hasKey b.node_data u && hasKey b.node_data v) = true
              · rw [if_pos hcond] at h
                rcases ih _ _ h p hp with hmem | hkeys
                · rcases addEdge_edges_sub b.graph u v hmem with hmem2 | rfl
                  · exact Or.inl hmem2
                  · rw [Bool.and_eq_true] at hcond
                    exact Or.inr ⟨hcond.1, hcond.2⟩
                · exact Or.inr hkeys
              · rw [if_neg hcond] at h
                exact ih _ _ h p hp

theorem build_ok_edges {data : GraphData} {b : Builder}
    (h : build_graph_from_data data = .ok b) :
    ∀ p ∈ b.graph.edges, p.1 ∈ nodeIds data ∧ p.2 ∈ nodeIds data := by
  intro p hp
  unfold build_graph_from_data at h
  cases h0 : addNodeRecs data.nodes ⟨⟨[], []⟩, [], []⟩ with
  | error u => rw [h0] at h; cases h
  | ok b1 =>
      rw [h0] at h
      have hedges1 : b1.graph.edges = [] := addNodeRecs_edges _ _ _ h0
      have hmemkey : ∀ q ∈ b.graph.edges,
          hasKey b1.node_data q.1 = true ∧ hasKey b1.node_data q.2 = true := by
        intro q hq
        rcases addEdgeRecs_edges _ _ _ h q hq with hmem | hkeys
        · rw [hedges1] at hmem
          cases hmem
        · exact hkeys
      have hkey_to_id : ∀ k, hasKey b1.node_data k = true → k ∈ nodeIds data := by
        intro k hk
        rcases addNodeRecs_hasKey _ _ _ h0 k hk with hfalse | ⟨n, hn, hnk⟩
        · cases hfalse
        · exact List.mem_filterMap.mpr ⟨n, hn, hnk⟩
      rcases hmemkey p hp with ⟨h1, h2⟩
      exact ⟨hkey_to_id _ h1, hkey_to_id _ h2⟩

theorem build_ok_iff (data : GraphData) :
    (∃ b, build_graph_from_data data = .ok b) ↔
      (∀ n ∈ data.nodes, n.id ≠ none) ∧
        (∀ e ∈ data.edges, e.fromId ≠ none ∧ e.toId ≠ none) := by
  unfold build_graph_from_data
  cases h0 : addNodeRecs data.nodes ⟨⟨[], []⟩, [], []⟩ with
  | error u =>
      have hnA : ¬ ∀ n ∈ data.nodes, n.id ≠ none := by
        intro hA
        rcases (addNodeRecs_ok_iff data.nodes _).mpr hA with ⟨b2, hb2⟩
        rw [h0] at hb2
        cases hb2
      simp only [Except.bind]
      constructor
      · rintro ⟨b, hb⟩
        cases hb
      · rintro ⟨hA, _⟩
        exact absurd hA hnA
  | ok b1 =>
      have hnodes : ∀ n ∈ data.nodes, n.id ≠ none :=
        (addNodeRecs_ok_iff data.nodes _).mp ⟨b1, h0⟩
      simp only [Except.bind]
      rw [addEdgeRecs_ok_iff]
      constructor
      · intro h
        exact ⟨hnodes, h⟩
      · rintro ⟨hn, he⟩
        exact he

theorem build_error_iff (data : GraphData) :
    build_graph_from_data data = .error () ↔
      (∃ n ∈ data.nodes, n.id = none) ∨
        (∃ e ∈ data.edges, e.fromId = none ∨ e.toId = none) := by
  rw [except_error_iff, build_ok_iff]
  constructor
  · intro h
    by_cases hA : ∀ n ∈ data.nodes, n.id ≠ none
    · have hnB : ¬ ∀ e ∈ data.edges, e.fromId ≠ none ∧ e.toId ≠ none :=
        fun hB => h ⟨hA, hB⟩
      right
      by_contra hne
      push_neg at hne
      exact hnB fun e he => ⟨(hne e he).1, (hne e he).2⟩
    · push_neg at hA
      rcases hA with ⟨n, hn, hid⟩
      exact Or.inl ⟨n, hn, hid⟩
  · rintro (⟨n, hn, hid⟩ | ⟨e, he, hor⟩) ⟨hA, hB⟩
    · exact hA n hn hid
    · rcases hor with h | h
      · exact (hB e he).1 h
      · exact (hB e he).2 h

/-! ## Claims C3 and C4 — graph construction -/

/-- A batch whose first node record has no `id` key, followed by a
fully well-formed node record. -/
def c3Data : GraphData :=
  ⟨[⟨none, none, none⟩, ⟨some "A", some 2020, some 1⟩], []⟩

/-- Claim C3 as stated is false: on a batch containing a node record
without an `id` field, `build_graph_from_data` raises `KeyError`
(modelled `Except.error`), aborting the whole build instead of
skipping the record — the well-formed second record is never built. -/
theorem build_skips_malformed_counterexample :
    build_graph_from_data c3Data = .error () := rfl

/-- C3 (amended): `build_graph_from_data` aborts with a `KeyError`
exactly when some record is malformed — a node record missing its `id`
field or an edge record missing its `from` or `to` field; malformed
records are not skipped.  Equivalently, a batch whose records all
carry the required fields always builds without error. -/
theorem build_malformed_aborts (data : GraphData) :
    build_graph_from_data data = .error () ↔
      (∃ n ∈ data.nodes, n.id = none) ∨
        (∃ e ∈ data.edges, e.fromId = none ∨ e.toId = none) :=
  build_error_iff data

/-- A batch with two well-formed nodes, one admissible edge and one
dangling edge (`"C"` is not a supplied node id). -/
def c4Data : GraphData :=
  ⟨[⟨some "A", some 2020, some 1⟩, ⟨some "B", some 2019, some 2⟩],
    [⟨some "A", some "B"⟩, ⟨some "A", some "C"⟩]⟩

/-- The builder state produced from `c4Data`: the dangling edge is
dropped. -/
def c4Builder : Builder :=
  ⟨⟨["A", "B"], [("A", "B")]⟩,
    [("A", ⟨some "A", some 2020, some 1⟩), ("B", ⟨some "B", some 2019, some 2⟩)],
    [(("A", "B"), ⟨some "A", some "B"⟩)]⟩

/-- C4: every edge of a successfully built graph has both endpoints
among the supplied node ids, and a batch of well-formed records never
errors — in particular an edge with a missing endpoint is silently
dropped rather than raising. -/
theorem build_edge_endpoints_valid (data : GraphData) (b : Builder) :
    (build_graph_from_data data = .ok b →
      ∀ p ∈ b.graph.edges, p.1 ∈ nodeIds data ∧ p.2 ∈ nodeIds data) ∧
    ((∀ n ∈ data.nodes, n.id ≠ none) →
      (∀ e ∈ data.edges, e.fromId ≠ none ∧ e.toId ≠ none) →
      build_graph_from_data data ≠ .error ()) := by
  constructor
  · intro h
    exact build_ok_edges h
  · intro h1 h2 herr
    rcases (build_error_iff data).mp herr with ⟨n, hn, hid⟩ | ⟨e, he, hor⟩
    · exact h1 n hn hid
    · rcases hor with h | h
      · exact (h2 e he).1 h
      · exact (h2 e he).2 h

/-- Witness for C4 at `c4Data`: the surviving edge `("A", "B")` has
both endpoints among the supplied ids, and the build — dangling edge
included — does not error. -/
theorem build_edge_endpoints_valid_witness :
    ("A" ∈ nodeIds c4Data ∧ "B" ∈ nodeIds c4Data) ∧
      build_graph_from_data c4Data ≠ .error () := by
  constructor
  · exact (build_edge_endpoints_valid c4Data c4Builder).1 rfl ("A", "B") (by decide)
  · exact (build_edge_endpoints_valid c4Data c4Builder).2 (by decide) (by decide)

/-! ## Claims C2 and C7 — relation discovery -/

/-- Tables where `X` cites both `T` and `A`: the one co-citation
situation the spec describes (a third paper citing the target together
with another paper). -/
def c2DB : DB := ⟨[("X", "T"), ("X", "A")], []⟩

/-- C2: at the failing input `c2DB` with target `"T"`, the co-citation
query of `get_related_papers` returns `["X"]` — the common *citing*
paper — where the spec (and the comment above the query, "papers that
are frequently cited together") require the co-cited paper `["A"]`:
the query selects `c1.citing_doi` instead of the co-cited
`c1.cited_doi`, and its correlated subquery counts the selected
value's outgoing citations rather than incoming ones. -/
theorem co_citation_selects_citing_side :
    coCitationQuery c2DB "T" = ["X"] ∧ coCitationSpec c2DB "T" = ["A"] ∧
      get_related_papers c2DB "T" = ["X"] := by
  refine ⟨by decide, by decide, by decide⟩

/-- Tables containing a self-citation row `(T, T)` together with an
ordinary citation `(T, A)` — a state reachable through
`save_citations("T", ["T", "A"])`, which inserts rows unguarded. -/
def c7SelfDB : DB := ⟨[("T", "T"), ("T", "A")], []⟩

/-- Claim C7 as stated is false: with a self-citation row in the
`citations` table the co-citation query returns the target itself,
because it constrains `c1.cited_doi != target` but never
`c1.citing_doi != target`. -/
theorem related_contains_target_counterexample :
    "T" ∈ get_related_papers c7SelfDB "T" := by decide

/-- C7 (amended): whenever the `citations` table holds no self-citation
row for the target, `get_related_papers` never returns the target's
own id; the shared-reference query excludes it unconditionally, and
the co-citation query can only produce it from a `(target, target)`
row. -/
theorem related_excludes_target (db : DB) (doi : String)
    (h : (doi, doi) ∉ db.citations) : doi ∉ get_related_papers db doi := by
  intro hmem
  simp only [get_related_papers] at hmem
  have hmem2 := mem_dedupFirst.mp (List.mem_of_mem_take hmem)
  rcases List.mem_append.mp hmem2 with hq | hq
  · simp only [sharedRefQuery] at hq
    have hq2 := (mem_stableSort _).mp (List.mem_of_mem_take hq)
    rcases List.mem_map.mp (mem_dedupFirst.mp hq2) with ⟨r, hr, hr1⟩
    rcases List.mem_filter.mp hr with ⟨_, hcond⟩
    rw [Bool.and_eq_true] at hcond
    exact absurd hr1 (bne_iff_ne.mp hcond.1)
  · simp only [coCitationQuery] at hq
    have hq2 := (mem_stableSort _).mp (List.mem_of_mem_take hq)
    rcases List.mem_map.mp (mem_dedupFirst.mp hq2) with ⟨c1, hc1, hc11⟩
    rcases List.mem_filter.mp hc1 with ⟨_, hcond⟩
    rw [Bool.and_eq_true] at hcond
    rcases List.any_eq_true.mp hcond.2 with ⟨c2, hc2, hc2cond⟩
    rw [Bool.and_eq_true] at hc2cond
    have h1 : c2.1 = doi := by
      rw [eq_of_beq hc2cond.1, hc11]
    have h2 : c2.2 = doi := eq_of_beq hc2cond.2
    have : (doi, doi) ∈ db.citations := by
      have : c2 = (doi, doi) := Prod.ext h1 h2
      rw [← this]
      exact hc2
    exact h this

/-- Self-citation-free tables where the target is cited alongside
another paper. -/
def c7CleanDB : DB := ⟨[("Y", "T"), ("Y", "B")], []⟩

/-- Witness for C7 (amended) at `c7CleanDB`: no self-citation row, so
the target `"T"` is absent from its own related-paper list. -/
theorem related_excludes_target_witness :
    "T" ∉ get_related_papers c7CleanDB "T" :=
  related_excludes_target c7CleanDB "T" (by decide)

/-! ## Claim C10 — relevance scorer constants -/

/-- C10: the scorer uses the fixed constant `current_year = 2024`
independent of the actual date, and a paper without a `year` key is
scored as if its year were 2000, receiving exactly
`(2024 - 2000) / 50 * 30 = 14.4` recency points. -/
theorem recency_uses_fixed_constants :
    current_year = 2024 ∧
      ∀ p : Paper, p.year = none → recencyScore p = 72 / 5 := by
  refine ⟨rfl, ?_⟩
  intro p hp
  unfold recencyScore
  rw [hp]
  have h1 : ((current_year : ℚ) - (((none : Option Int).getD 2000 : ℤ) : ℚ)) / 50 = 12 / 25 := by
    norm_num [current_year, Option.getD]
  rw [h1, max_eq_right (by norm_num : (0 : ℚ) ≤ 12 / 25)]
  norm_num

/-- Witness for C10: a concrete paper with no year gets 14.4 recency
points. -/
theorem recency_uses_fixed_constants_witness :
    recencyScore ⟨some 3, none, some "cell", ["graph"]⟩ = 72 / 5 :=
  recency_uses_fixed_constants.2 ⟨some 3, none, some "cell", ["graph"]⟩ rfl

/-! ## Claim C9 — year filtering -/

theorem contains_iff_mem_str {l : List String} {a : String} :
    l.contains a = true ↔ a ∈ l :=
  List.elem_iff

/-- The year predicate driving node removal. -/
def outOfRange (b : Builder) (y1 y2 : Int) (v : String) : Bool :=
  decide (yearOf b v < y1) || decide (y2 < yearOf b v)

theorem outOfRange_eq_false {b : Builder} {y1 y2 : Int} {v : String} :
    outOfRange b y1 y2 v = false ↔ y1 ≤ yearOf b v ∧ yearOf b v ≤ y2 := by
  unfold outOfRange
  constructor
  · intro h
    have h2 : ¬ (decide (yearOf b v < y1) || decide (y2 < yearOf b v)) = true := by
      rw [h]
      exact Bool.false_ne_true
    rw [Bool.or_eq_true, decide_eq_true_iff, decide_eq_true_iff] at h2
    push_neg at h2
    exact h2
  · rintro ⟨h1, h2⟩
    rw [Bool.or_eq_false_iff, decide_eq_false_iff_not, decide_eq_false_iff_not]
    exact ⟨not_lt.mpr h1, not_lt.mpr h2⟩

theorem filter_graph_by_year_eq (b : Builder) (y1 y2 : Int) :
    filter_graph_by_year b y1 y2 =
      removeNodes b.graph (b.graph.nodes.filter (outOfRange b y1 y2)) := rfl

/-- Node membership of the filtered graph: exactly the original nodes
whose (defaulted) year lies in the range. -/
theorem mem_filter_graph_by_year (b : Builder) (y1 y2 : Int) (v : String) :
    v ∈ (filter_graph_by_year b y1 y2).nodes ↔
      v ∈ b.graph.nodes ∧ y1 ≤ yearOf b v ∧ yearOf b v ≤ y2 := by
  rw [filter_graph_by_year_eq]
  simp only [removeNodes, List.mem_filter]
  constructor
  · rintro ⟨hv, hnc⟩
    refine ⟨hv, outOfRange_eq_false.mp ?_⟩
    cases hoor : outOfRange b y1 y2 v with
    | false => rfl
    | true =>
        have : v ∈ b.graph.nodes.filter (outOfRange b y1 y2) :=
          List.mem_filter.mpr ⟨hv, hoor⟩
        rw [contains_iff_mem_str.mpr this] at hnc
        cases hnc
  · rintro ⟨hv, hy⟩
    refine ⟨hv, ?_⟩
    cases hc : (b.graph.nodes.filter (outOfRange b y1 y2)).contains v with
    | false => rfl
    | true =>
        rcases List.mem_filter.mp (contains_iff_mem_str.mp hc) with ⟨_, hpred⟩
        rw [outOfRange_eq_false.mpr hy] at hpred
        cases hpred

/-- Characterises when the removal-set check on a single endpoint
passes. -/
theorem not_contains_removed (b : Builder) (y1 y2 : Int) (v : String) :
    (!(b.graph.nodes.filter (outOfRange b y1 y2)).contains v) = true ↔
      ¬ (v ∈ b.graph.nodes ∧ (yearOf b v < y1 ∨ y2 < yearOf b v)) := by
  constructor
  · intro hnc
    rintro ⟨hn, hy⟩
    have hpred : outOfRange b y1 y2 v = true := by
      cases hoor : outOfRange b y1 y2 v with
      | true => rfl
      | false =>
          rcases outOfRange_eq_false.mp hoor with ⟨h1, h2⟩
          rcases hy with h | h
          · exact absurd h1 (not_le.mpr h)
          · exact absurd h2 (not_le.mpr h)
    have hmem : v ∈ b.graph.nodes.filter (outOfRange b y1 y2) :=
      List.mem_filter.mpr ⟨hn, hpred⟩
    rw [contains_iff_mem_str.mpr hmem] at hnc
    cases hnc
  · intro h
    cases hc : (b.graph.nodes.filter (outOfRange b y1 y2)).contains v with
    | false => rfl
    | true =>
        rcases List.mem_filter.mp (contains_iff_mem_str.mp hc) with ⟨hn, hpred⟩
        exfalso
        apply h
        refine ⟨hn, ?_⟩
        by_contra hy
        push_neg at hy
        rw [outOfRange_eq_false.mpr hy] at hpred
        cases hpred

/-- Edge membership of the filtered graph. -/
theorem mem_filter_graph_by_year_edges (b : Builder) (y1 y2 : Int)
    (p : String × String) :
    p ∈ (filter_graph_by_year b y1 y2).edges ↔
      p ∈ b.graph.edges ∧
        ¬ (p.1 ∈ b.graph.nodes ∧ (yearOf b p.1 < y1 ∨ y2 < yearOf b p.1)) ∧
        ¬ (p.2 ∈ b.graph.nodes ∧ (yearOf b p.2 < y1 ∨ y2 < yearOf b p.2)) := by
  rw [filter_graph_by_year_eq]
  simp only [removeNodes, List.mem_filter, Bool.and_eq_true]
  rw [not_contains_removed, not_contains_removed]

/-- C9: every node surviving `filter_graph_by_year` has its
(`node_data`-defaulted) year inside `[y1, y2]`; an edge one of whose
endpoints was removed is removed as well; the call leaves the builder
— source graph and attribute tables — unchanged; and filtering the
already-filtered graph with the same bounds is a no-op. -/
theorem filter_by_year_correct (b : Builder) (y1 y2 : Int) :
    (∀ v ∈ (filter_graph_by_year b y1 y2).nodes,
        y1 ≤ yearOf b v ∧ yearOf b v ≤ y2) ∧
    (∀ p ∈ b.graph.edges,
        (p.1 ∈ b.graph.nodes ∧ p.1 ∉ (filter_graph_by_year b y1 y2).nodes) ∨
          (p.2 ∈ b.graph.nodes ∧ p.2 ∉ (filter_graph_by_year b y1 y2).nodes) →
        p ∉ (filter_graph_by_year b y1 y2).edges) ∧
    (filter_graph_by_year_S b y1 y2).2 = b ∧
    filter_graph_by_year ⟨filter_graph_by_year b y1 y2, b.node_data, b.edge_data⟩ y1 y2 =
      filter_graph_by_year b y1 y2 := by
  refine ⟨?_, ?_, rfl, ?_⟩
  · intro v hv
    exact ((mem_filter_graph_by_year b y1 y2 v).mp hv).2
  · rintro p hp (⟨hn, hout⟩ | ⟨hn, hout⟩) hmem
    · rcases (mem_filter_graph_by_year_edges b y1 y2 p).mp hmem with ⟨_, hk1, _⟩
      have hbad : yearOf b p.1 < y1 ∨ y2 < yearOf b p.1 := by
        by_contra hgood
        push_neg at hgood
        exact hout ((mem_filter_graph_by_year b y1 y2 p.1).mpr ⟨hn, hgood⟩)
      exact hk1 ⟨hn, hbad⟩
    · rcases (mem_filter_graph_by_year_edges b y1 y2 p).mp hmem with ⟨_, _, hk2⟩
      have hbad : yearOf b p.2 < y1 ∨ y2 < yearOf b p.2 := by
        by_contra hgood
        push_neg at hgood
        exact hout ((mem_filter_graph_by_year b y1 y2 p.2).mpr ⟨hn, hgood⟩)
      exact hk2 ⟨hn, hbad⟩
  · have hyear : yearOf ⟨filter_graph_by_year b y1 y2, b.node_data, b.edge_data⟩ = yearOf b :=
      rfl
    have hrem : ((filter_graph_by_year b y1 y2).nodes.filter
        (outOfRange ⟨filter_graph_by_year b y1 y2, b.node_data, b.edge_data⟩ y1 y2)) = [] := by
      rw [List.filter_eq_nil_iff]
      intro v hv
      intro hpred
      have heqb : outOfRange ⟨filter_graph_by_year b y1 y2, b.node_data, b.edge_data⟩ y1 y2 v =
          outOfRange b y1 y2 v := rfl
      rw [heqb, outOfRange_eq_false.mpr ((mem_filter_graph_by_year b y1 y2 v).mp hv).2] at hpred
      cases hpred
    rw [filter_graph_by_year_eq]
    rw [show (⟨filter_graph_by_year b y1 y2, b.node_data, b.edge_data⟩ : Builder).graph =
      filter_graph_by_year b y1 y2 from rfl]
    rw [hrem]
    show removeNodes (filter_graph_by_year b y1 y2) [] = filter_graph_by_year b y1 y2
    cases hgf : filter_graph_by_year b y1 y2 with
    | mk ns es =>
        simp only [removeNodes]
        have h1 : (ns.filter fun v => !([] : List String).contains v) = ns :=
          List.filter_eq_self.mpr fun a _ => rfl
        have h2 : (es.filter fun e =>
            !([] : List String).contains e.1 && !([] : List String).contains e.2) = es :=
          List.filter_eq_self.mpr fun a _ => rfl
        rw [h1, h2]

/-- A builder over three papers; paper `B` falls outside the year
range `[2000, 2025]` used by the witness. -/
def c9Builder : Builder :=
  ⟨⟨["A", "B", "C"], [("A", "B"), ("C", "A")]⟩,
    [("A", ⟨some "A", some 2020, some 10⟩), ("B", ⟨some "B", some 1990, some 15⟩),
      ("C", ⟨some "C", some 2021, some 8⟩)],
    []⟩

/-- Witness for C9 at `c9Builder` with bounds `[2000, 2025]`: the kept
node `A` is in range, the edge to the removed node `B` disappears, the
builder is untouched, and re-filtering is a no-op. -/
theorem filter_by_year_correct_witness :
    (2000 ≤ yearOf c9Builder "A" ∧ yearOf c9Builder "A" ≤ 2025) ∧
      ("A", "B") ∉ (filter_graph_by_year c9Builder 2000 2025).edges ∧
      (filter_graph_by_year_S c9Builder 2000 2025).2 = c9Builder ∧
      filter_graph_by_year
          ⟨filter_graph_by_year c9Builder 2000 2025, c9Builder.node_data,
            c9Builder.edge_data⟩ 2000 2025 =
        filter_graph_by_year c9Builder 2000 2025 :=
  ⟨(filter_by_year_correct c9Builder 2000 2025).1 "A" (by decide),
    (filter_by_year_correct c9Builder 2000 2025).2.1 ("A", "B") (by decide)
      (Or.inr ⟨by decide, by decide⟩),
    (filter_by_year_correct c9Builder 2000 2025).2.2.1,
    (filter_by_year_correct c9Builder 2000 2025).2.2.2⟩

/-! ## Claims C1 and C6 — relevance scorer -/

theorem citationScore_bounds (p : Paper) :
    0 ≤ citationScore p ∧ citationScore p ≤ 40 := by
  unfold citationScore
  constructor
  · apply mul_nonneg _ (by norm_num)
    exact le_min (div_nonneg (Nat.cast_nonneg _) (by norm_num)) (by norm_num)
  · calc min ((p.citation_count.getD 0 : ℚ) / 100) 1 * 40 ≤ 1 * 40 :=
        mul_le_mul_of_nonneg_right (min_le_right _ _) (by norm_num)
    _ = 40 := by norm_num

theorem recencyScore_nonneg (p : Paper) : 0 ≤ recencyScore p := by
  unfold recencyScore
  exact mul_nonneg (le_max_left _ _) (by norm_num)

theorem recencyScore_le (p : Paper) (h : (1974 : ℤ) ≤ p.year.getD 2000) :
    recencyScore p ≤ 30 := by
  unfold recencyScore
  have hy : (1974 : ℚ) ≤ ((p.year.getD 2000 : ℤ) : ℚ) := by
    exact_mod_cast h
  have hq : ((current_year : ℚ) - ((p.year.getD 2000 : ℤ) : ℚ)) / 50 ≤ 1 := by
    rw [div_le_one (by norm_num : (0 : ℚ) < 50)]
    unfold current_year
    push_cast
    linarith
  calc max 0 (((current_year : ℚ) - ((p.year.getD 2000 : ℤ) : ℚ)) / 50) * 30 ≤ 1 * 30 :=
      mul_le_mul_of_nonneg_right (max_le (by norm_num) hq) (by norm_num)
  _ = 30 := by norm_num

theorem journalScore_bounds (p : Paper) :
    0 ≤ journalScore p ∧ journalScore p ≤ 20 := by
  simp only [journalScore]
  split_ifs <;> norm_num

theorem keywordScore_bounds (kws : List String) (p : Paper) :
    0 ≤ keywordScore kws p ∧ keywordScore kws p ≤ 10 := by
  unfold keywordScore
  split_ifs with h
  · constructor
    · apply mul_nonneg _ (by norm_num)
      exact le_min (div_nonneg (Nat.cast_nonneg _) (Nat.cast_nonneg _)) (by norm_num)
    · calc min (((kws.countP fun kw => (p.keywords.map pyLower).any fun pk =>
            strContains kw pk || strContains pk kw : ℕ) : ℚ) / (kws.length : ℚ)) 1 * 10 ≤
          1 * 10 := mul_le_mul_of_nonneg_right (min_le_right _ _) (by norm_num)
      _ = 10 := by norm_num
  · norm_num

theorem pyRound2_bounds {q : ℚ} (h0 : 0 ≤ q) (h100 : q ≤ 100) :
    0 ≤ pyRound 2 q ∧ pyRound 2 q ≤ 100 := by
  unfold pyRound
  constructor
  · apply div_nonneg _ (by norm_num)
    have : (0 : ℤ) ≤ ⌊q * ((10 : ℕ) ^ 2 : ℕ) + 1 / 2⌋ := by
      rw [Int.le_floor]
      push_cast
      nlinarith
    exact_mod_cast this
  · rw [div_le_iff₀ (by norm_num : (0 : ℚ) < ((10 : ℕ) ^ 2 : ℕ))]
    have hfl : ⌊q * ((10 : ℕ) ^ 2 : ℕ) + 1 / 2⌋ ≤ 10000 := by
      have h1 : q * ((10 : ℕ) ^ 2 : ℕ) + 1 / 2 ≤ (10000 : ℚ) + 1 / 2 := by
        push_cast
        nlinarith
      have h2 : ⌊((10000 : ℚ) + 1 / 2)⌋ = 10000 := by
        norm_num [Int.floor_eq_iff]
      calc ⌊q * ((10 : ℕ) ^ 2 : ℕ) + 1 / 2⌋ ≤ ⌊((10000 : ℚ) + 1 / 2)⌋ :=
          Int.floor_le_floor h1
      _ = 10000 := h2
    have : ((⌊q * ((10 : ℕ) ^ 2 : ℕ) + 1 / 2⌋ : ℤ) : ℚ) ≤ 10000 := by
      exact_mod_cast hfl
    calc ((⌊q * ((10 : ℕ) ^ 2 : ℕ) + 1 / 2⌋ : ℤ) : ℚ) ≤ 10000 := this
    _ = 100 * ((10 : ℕ) ^ 2 : ℕ) := by push_cast; norm_num

/-- Every element of the ranked output is the annotation of an input
paper. -/
theorem mem_find_most_relevant (papers : List Paper) (kws : List String)
    {sp : ScoredPaper} (hmem : sp ∈ find_most_relevant_papers papers kws) :
    ∃ p ∈ papers, sp = scorePaper kws p := by
  unfold find_most_relevant_papers at hmem
  split at hmem
  · cases hmem
  · have h1 := (mem_stableSort scoreLe).mp (List.mem_of_mem_take hmem)
    rcases List.mem_map.mp h1 with ⟨p, hp, hsp⟩
    exact ⟨p, hp, hsp.symm⟩

/-- A very old paper: year 1000, no citations, empty venue, no
keywords. -/
def oldPaper : Paper := ⟨some 0, some 1000, some "", []⟩

/-- Claim C1 as stated is false: the recency component
`max(0, (2024 − year)/50) * 30` has no upper cap, so the paper from
year 1000 scores `0 + 614.4 + 10 + 0 = 624.4 > 100`, and that is
exactly the relevance score `find_most_relevant_papers` attaches to
it. -/
theorem relevance_score_exceeds_100_counterexample :
    find_most_relevant_papers [oldPaper] [] = [scorePaper [] oldPaper] ∧
      (scorePaper [] oldPaper).relevance_score = 3122 / 5 ∧
      (100 : ℚ) < 3122 / 5 := by
  refine ⟨rfl, ?_, by norm_num⟩
  have hc : citationScore oldPaper = 0 := by
    unfold citationScore oldPaper
    norm_num
  have hr : recencyScore oldPaper = 3072 / 5 := by
    unfold recencyScore oldPaper current_year
    rw [show ((((2024 : ℤ) : ℚ)) - (((some (1000 : ℤ)).getD 2000 : ℤ) : ℚ)) / 50 =
      512 / 25 from by norm_num]
    rw [max_eq_right (by norm_num : (0 : ℚ) ≤ 512 / 25)]
    norm_num
  have hj : journalScore oldPaper = 10 := by
    simp only [journalScore]
    rw [if_neg (by decide), if_neg (by decide), if_neg (by decide)]
  have hk : keywordScore [] oldPaper = 0 := by
    simp [keywordScore]
  show pyRound 2 (citationScore oldPaper + recencyScore oldPaper + journalScore oldPaper +
    keywordScore [] oldPaper) = 3122 / 5
  rw [hc, hr, hj, hk]
  unfold pyRound
  norm_num [Int.floor_eq_iff]

/-- C1 (amended): the citation, venue and keyword components are
capped at 40, 20 and 10 points, but the recency component is not; the
relevance score attached by `find_most_relevant_papers` lies in
`[0, 100]` for every input batch whose papers all have
(default-filled) year at least 1974, while older papers can push it
past 100. -/
theorem relevance_score_bounds (papers : List Paper) (kws : List String)
    (sp : ScoredPaper) (hmem : sp ∈ find_most_relevant_papers papers kws)
    (hyears : ∀ p ∈ papers, (1974 : ℤ) ≤ p.year.getD 2000) :
    0 ≤ sp.relevance_score ∧ sp.relevance_score ≤ 100 := by
  rcases mem_find_most_relevant papers kws hmem with ⟨p, hp, rfl⟩
  show 0 ≤ pyRound 2 (citationScore p + recencyScore p + journalScore p +
    keywordScore kws p) ∧ pyRound 2 (citationScore p + recencyScore p + journalScore p +
    keywordScore kws p) ≤ 100
  have h1 := citationScore_bounds p
  have h2 := recencyScore_nonneg p
  have h3 := recencyScore_le p (hyears p hp)
  have h4 := journalScore_bounds p
  have h5 := keywordScore_bounds kws p
  exact pyRound2_bounds (by linarith [h1.1, h4.1, h5.1]) (by linarith [h1.2, h4.2, h5.2])

/-- A paper from 2020 published in a flagship venue. -/
def recentPaper : Paper := ⟨some 5, some 2020, some "nature", []⟩

/-- Witness for C1 (amended): the concrete 2020 paper's attached score
lies in `[0, 100]`. -/
theorem relevance_score_bounds_witness :
    0 ≤ (scorePaper [] recentPaper).relevance_score ∧
      (scorePaper [] recentPaper).relevance_score ≤ 100 :=
  relevance_score_bounds [recentPaper] [] (scorePaper [] recentPaper)
    (List.mem_cons_self _ _) (by decide)

/-- C6: the ranked output is empty on empty input, holds at most 15
entries, is sorted descending by the attached rounded score, consists
of annotated input papers, and the sort is stable — any selection of
annotated papers already in descending order (ties included) survives
as a subsequence of the sorted list. -/
theorem find_most_relevant_output_spec (papers : List Paper) (kws : List String) :
    find_most_relevant_papers [] kws = [] ∧
    (find_most_relevant_papers papers kws).length ≤ 15 ∧
    (find_most_relevant_papers papers kws).Pairwise
      (fun a b => b.relevance_score ≤ a.relevance_score) ∧
    (find_most_relevant_papers papers kws).Subperm (papers.map (scorePaper kws)) ∧
    (∀ c : List ScoredPaper, c.Sublist (papers.map (scorePaper kws)) →
      c.Pairwise (fun a b => scoreLe a b = true) →
      c.Sublist (stableSort scoreLe (papers.map (scorePaper kws)))) := by
  refine ⟨by simp [find_most_relevant_papers], ?_, ?_, ?_, ?_⟩
  · unfold find_most_relevant_papers
    split
    · simp
    · exact List.length_take_le _ _
  · unfold find_most_relevant_papers
    split
    · exact List.Pairwise.nil
    · have hs := pairwise_stableSort scoreLe scoreLe_trans scoreLe_total
        (papers.map (scorePaper kws))
      have hs2 : (stableSort scoreLe (papers.map (scorePaper kws))).Pairwise
          (fun a b => b.relevance_score ≤ a.relevance_score) :=
        hs.imp fun h => of_decide_eq_true h
      exact hs2.sublist (List.take_sublist _ _)
  · unfold find_most_relevant_papers
    split
    · exact List.nil_subperm
    · exact ((List.take_sublist _ _).subperm).trans
        ((stableSort_perm scoreLe (papers.map (scorePaper kws))).subperm)
  · intro c hc hcp
    exact sublist_stableSort scoreLe hc hcp

/-- Witness for C6 at a two-element batch of identical papers: the
tied pair survives the stable sort in input order, the empty input
maps to the empty output, and the cap holds. -/
theorem find_most_relevant_output_spec_witness :
    ([scorePaper [] recentPaper, scorePaper [] recentPaper]).Sublist
        (stableSort scoreLe ([recentPaper, recentPaper].map (scorePaper []))) ∧
      find_most_relevant_papers [] [] = [] ∧
      (find_most_relevant_papers [recentPaper, recentPaper] []).length ≤ 15 := by
  have hpair : ([scorePaper [] recentPaper, scorePaper [] recentPaper]).Pairwise
      (fun a b => scoreLe a b = true) := by
    refine List.pairwise_cons.mpr ⟨?_, List.pairwise_singleton _ _⟩
    intro z hz
    cases List.mem_singleton.mp hz
    exact decide_eq_true (le_refl _)
  refine ⟨(find_most_relevant_output_spec [recentPaper, recentPaper] []).2.2.2.2
      [scorePaper [] recentPaper, scorePaper [] recentPaper]
      (List.Sublist.refl _) hpair,
    (find_most_relevant_output_spec [recentPaper, recentPaper] []).1,
    (find_most_relevant_output_spec [recentPaper, recentPaper] []).2.1⟩

/-! ## Claim C8 — density formula and example statistics -/

/-- Reported density: `0` for at most one node, otherwise the directed
density rounded to four decimals. -/
theorem density_formula (g : DiGraph) :
    (g.nodes.length ≤ 1 → (get_graph_statistics g).density = 0) ∧
    (2 ≤ g.nodes.length → (get_graph_statistics g).density =
      pyRound 4 ((g.edges.length : ℚ) /
        ((g.nodes.length : ℚ) * ((g.nodes.length : ℚ) - 1)))) := by
  constructor
  · intro hle
    unfold get_graph_statistics
    split
    · rfl
    · show pyRound 4 (if 1 < g.nodes.length then
          (g.edges.length : ℚ) / ((g.nodes.length : ℚ) * ((g.nodes.length : ℚ) - 1))
        else 0) = 0
      rw [if_neg (by omega)]
      unfold pyRound
      norm_num [Int.floor_eq_iff]
  · intro h2
    unfold get_graph_statistics
    split
    · rename_i hnil
      rw [hnil] at h2
      simp at h2
    · show pyRound 4 (if 1 < g.nodes.length then
          (g.edges.length : ℚ) / ((g.nodes.length : ℚ) * ((g.nodes.length : ℚ) - 1))
        else 0) = _
      rw [if_pos (by omega)]

/-- The spec example graph: nodes `A`, `B`, `C` with edges `A → B` and
`C → A`. -/
def gEx : DiGraph := ⟨["A", "B", "C"], [("A", "B"), ("C", "A")]⟩

/-- The spec example as an input batch for `build_graph_from_data`. -/
def exampleData : GraphData :=
  ⟨[⟨some "A", some 2020, some 10⟩, ⟨some "B", some 2019, some 15⟩,
      ⟨some "C", some 2021, some 8⟩],
    [⟨some "A", some "B"⟩, ⟨some "C", some "A"⟩]⟩

/-- In-degree lookup on an optional centrality result. -/
def inDegreeLookup (o : Option Centrality) (k : String) : Option ℚ :=
  match o with
  | some c => c.in_degree.lookup k
  | none => none

/-- Claim C8 as stated is false: the reported density is the 4-decimal
rounding of `edge_count / (n·(n−1))`, which differs from the exact
quotient — on 3 nodes with a single edge the code reports `0.1667`,
not `1/6`. -/
theorem density_rounding_counterexample :
    (get_graph_statistics ⟨["A", "B", "C"], [("A", "B")]⟩).density = 1667 / 10000 ∧
      (get_graph_statistics ⟨["A", "B", "C"], [("A", "B")]⟩).density ≠
        ((⟨["A", "B", "C"], [("A", "B")]⟩ : DiGraph).edges.length : ℚ) /
          (((⟨["A", "B", "C"], [("A", "B")]⟩ : DiGraph).nodes.length : ℚ) *
            (((⟨["A", "B", "C"], [("A", "B")]⟩ : DiGraph).nodes.length : ℚ) - 1)) := by
  have hv : (get_graph_statistics ⟨["A", "B", "C"], [("A", "B")]⟩).density = 1667 / 10000 := by
    have h := (density_formula ⟨["A", "B", "C"], [("A", "B")]⟩).2 (by decide)
    rw [h]
    show pyRound 4 (((1 : ℕ) : ℚ) / (((3 : ℕ) : ℚ) * (((3 : ℕ) : ℚ) - 1))) = 1667 / 10000
    unfold pyRound
    norm_num [Int.floor_eq_iff]
  refine ⟨hv, ?_⟩
  rw [hv]
  show (1667 : ℚ) / 10000 ≠ ((1 : ℕ) : ℚ) / (((3 : ℕ) : ℚ) * (((3 : ℕ) : ℚ) - 1))
  norm_num

/-- C8 (amended): the reported density is `0` for graphs with at most
one node and otherwise the 4-decimal rounding of
`edge_count / (n·(n−1))`; on the spec example graph the statistics
report `total_nodes = 3`, `total_edges = 2`, density `0.3333`
(the rounding of `2/6`), and the in-degree centrality of `A` is
`1/2`. -/
theorem density_and_example_stats (g1 g2 : DiGraph)
    (bw pr : DiGraph → Except Unit (List (String × ℚ))) :
    (g1.nodes.length ≤ 1 → (get_graph_statistics g1).density = 0) ∧
    (2 ≤ g2.nodes.length → (get_graph_statistics g2).density =
      pyRound 4 ((g2.edges.length : ℚ) /
        ((g2.nodes.length : ℚ) * ((g2.nodes.length : ℚ) - 1)))) ∧
    (build_graph_from_data exampleData).map Builder.graph = .ok gEx ∧
    (get_graph_statistics gEx).total_nodes = 3 ∧
    (get_graph_statistics gEx).total_edges = 2 ∧
    (get_graph_statistics gEx).density = 3333 / 10000 ∧
    inDegreeLookup (get_centrality_measures bw pr gEx) "A" = some (1 / 2) := by
  refine ⟨(density_formula g1).1, (density_formula g2).2, rfl, rfl, rfl, ?_, ?_⟩
  · have h := (density_formula gEx).2 (by decide)
    rw [h]
    show pyRound 4 (((2 : ℕ) : ℚ) / (((3 : ℕ) : ℚ) * (((3 : ℕ) : ℚ) - 1))) = 3333 / 10000
    unfold pyRound
    norm_num [Int.floor_eq_iff]
  · unfold inDegreeLookup get_centrality_measures
    rw [if_neg (by decide)]
    show (nxInDegreeCentrality gEx).lookup "A" = some (1 / 2)
    unfold nxInDegreeCentrality
    rw [if_neg (by decide)]
    have hdeg : inDeg gEx "A" = 1 := by decide
    show List.lookup "A" (gEx.nodes.map fun v =>
      (v, (inDeg gEx v : ℚ) / ((gEx.nodes.length : ℚ) - 1))) = some (1 / 2)
    rw [show gEx.nodes = ["A", "B", "C"] from rfl]
    simp only [List.map_cons, List.map_nil, List.lookup_cons]
    rw [show ("A" == "A") = true from rfl]
    rw [hdeg]
    norm_num

/-- Witness for C8 (amended): the single-node graph reports density
`0`; the three-node one-edge graph reports the rounded quotient. -/
theorem density_and_example_stats_witness :
    (get_graph_statistics ⟨["A"], []⟩).density = 0 ∧
      (get_graph_statistics ⟨["A", "B", "C"], [("C", "A")]⟩).density =
        pyRound 4 (((⟨["A", "B", "C"], [("C", "A")]⟩ : DiGraph).edges.length : ℚ) /
          (((⟨["A", "B", "C"], [("C", "A")]⟩ : DiGraph).nodes.length : ℚ) *
            (((⟨["A", "B", "C"], [("C", "A")]⟩ : DiGraph).nodes.length : ℚ) - 1))) :=
  ⟨(density_and_example_stats ⟨["A"], []⟩ ⟨["A", "B", "C"], [("C", "A")]⟩
        (fun _ => .ok []) (fun _ => .ok [])).1 (by decide),
    (density_and_example_stats ⟨["A"], []⟩ ⟨["A", "B", "C"], [("C", "A")]⟩
        (fun _ => .ok []) (fun _ => .ok [])).2.1 (by decide)⟩

/-! ## Claim C5 — degenerate inputs of statistics and centrality -/

/-- The pagerank mapping of a centrality result, when one was
returned. -/
def pagerankOf (o : Option Centrality) : Option (List (String × ℚ)) :=
  o.map Centrality.pagerank

/-- C5: statistics and centrality degrade to documented defaults on
degenerate inputs instead of raising (both embedded functions are
total): the empty graph yields the all-zero statistics record and the
empty (`none`) centrality mapping; a disconnected undirected
projection yields a reported diameter of `0`; and whenever the
PageRank library call fails, every node receives the uniform value
`1/n` — for every behaviour `bw`, `pr` of the two library
algorithms. -/
theorem degenerate_inputs_default (g h : DiGraph)
    (bw pr : DiGraph → Except Unit (List (String × ℚ))) :
    (g.nodes = [] → get_graph_statistics g = ⟨0, 0, 0, 0, 0, 0⟩) ∧
    (g.nodes = [] → get_centrality_measures bw pr g = none) ∧
    (isConnectedU h = false → (get_graph_statistics h).diameter = 0) ∧
    (h.nodes ≠ [] → pr h = .error () →
      pagerankOf (get_centrality_measures bw pr h) =
        some (h.nodes.map fun v => (v, 1 / (h.nodes.length : ℚ)))) := by
  refine ⟨?_, ?_, ?_, ?_⟩
  · intro hg
    unfold get_graph_statistics
    rw [if_pos hg]
  · intro hg
    unfold get_centrality_measures
    rw [if_pos hg]
  · intro hconn
    unfold get_graph_statistics
    split
    · rfl
    · simp [nxDiameter, hconn]
  · intro hn hpr
    unfold pagerankOf get_centrality_measures
    rw [if_neg hn]
    simp [hpr]

/-- Two isolated nodes: a nonempty graph whose undirected projection
is disconnected. -/
def c5G2 : DiGraph := ⟨["a", "b"], []⟩

/-- A PageRank stand-in that always fails to converge. -/
def prFail : DiGraph → Except Unit (List (String × ℚ)) := fun _ => .error ()

/-- A betweenness stand-in that always succeeds. -/
def bwOk : DiGraph → Except Unit (List (String × ℚ)) := fun _ => .ok []

/-- Witness for C5: the empty graph and the two-isolated-node graph,
with a failing PageRank. -/
theorem degenerate_inputs_default_witness :
    get_graph_statistics ⟨[], []⟩ = ⟨0, 0, 0, 0, 0, 0⟩ ∧
      get_centrality_measures bwOk prFail ⟨[], []⟩ = none ∧
      (get_graph_statistics c5G2).diameter = 0 ∧
      pagerankOf (get_centrality_measures bwOk prFail c5G2) =
        some (c5G2.nodes.map fun v => (v, 1 / (c5G2.nodes.length : ℚ))) :=
  ⟨(degenerate_inputs_default ⟨[], []⟩ c5G2 bwOk prFail).1 rfl,
    (degenerate_inputs_default ⟨[], []⟩ c5G2 bwOk prFail).2.1 rfl,
    (degenerate_inputs_default ⟨[], []⟩ c5G2 bwOk prFail).2.2.1 (by decide),
    (degenerate_inputs_default ⟨[], []⟩ c5G2 bwOk prFail).2.2.2 (by decide) rfl⟩
